import Mathlib

/-!
Verification of the chromana icon-font build pipeline (`src/scripts/build.ts`).

The script discovers SVG icon files under an icon root, derives the set of
"game" (icon-set) directories from the locations of `config.toml` files,
partitions the icons into groups, loads a per-group configuration (with a
derived default on parse failure), and for each group (plus once for the
union of all icons) assembles a vector font, converts it into binary font
formats, and emits a stylesheet and a JSON icon manifest.

The embedding below models the script's pure bookkeeping directly and models
the effectful steps (file writes, fallible external format converters) as an
explicit write trace parameterised by an environment saying which external
calls succeed.  Paths are the relative, slash-separated strings produced by
`glob`, exactly as the script manipulates them.
-/

namespace Chromana

/-! ### Font constants (build.ts lines 15-20) -/

def fontName : String := "chromana"

def fontId : String := "chromana"

def fontFamily : String := "Chromana"

def fontWeight : String := "normal"

def fontStyle : String := "normal"

/-- `cssPrefix` in build.ts (line 20). -/
def cssPre : String := "cm"

/-! ### Path helpers, modelling Node's `path.dirname` / `path.basename`
and JS `String.prototype.startsWith` on the relative slash-separated
paths returned by `glob`. -/

/-- Split a character list on a separator character; mirrors
`String.splitOn` for a one-character separator (never returns `[]`). -/
def splitOnChar (sep : Char) : List Char → List (List Char)
  | [] => [[]]
  | c :: rest =>
    let r := splitOnChar sep rest
    if c = sep then [] :: r
    else
      match r with
      | h :: t => (c :: h) :: t
      | [] => [[c]]

/-- The `/`-separated components of a relative path. -/
def pathParts (s : String) : List String :=
  (splitOnChar '/' s.data).map (fun l => ⟨l⟩)

/-- Join path components with `/`. -/
def joinPath : List String → String
  | [] => ""
  | [s] => s
  | s :: rest => s ++ "/" ++ joinPath rest

/-- Node `path.dirname` on a relative path: all but the last component,
or `"."` when there is no separator. -/
def dirname (p : String) : String :=
  let parts := pathParts p
  if parts.length ≤ 1 then "." else joinPath parts.dropLast

/-- Node `path.basename`: the last path component. -/
def baseName (p : String) : String :=
  ((pathParts p).getLast?).getD ""

/-- Node `path.basename(p, '.svg')`: last component with a trailing
`.svg` stripped (unless the component is exactly `.svg`). -/
def baseNameSvg (p : String) : String :=
  let b := baseName p
  let cs := b.data
  if b ≠ ".svg" ∧ cs.reverse.take 4 = ['g', 'v', 's', '.'] then
    ⟨cs.take (cs.length - 4)⟩
  else b

/-- `pre` is an initial segment of `s` (character lists). -/
def startsChars : List Char → List Char → Bool
  | [], _ => true
  | _ :: _, [] => false
  | a :: as, b :: bs => a = b && startsChars as bs

/-- JS `s.startsWith(pre)`. -/
def strStartsWith (s pre : String) : Bool :=
  startsChars pre.data s.data

/-- JS `String.prototype.toLowerCase` restricted to ASCII letters, the
only case the pipeline's `[^a-z0-9]` stripping distinguishes. -/
def toLowerAscii (s : String) : String :=
  ⟨s.data.map Char.toLower⟩

/-- Is `c` a lower-case ASCII letter or digit ( `[a-z0-9]` )? -/
def isLowerAlnum (c : Char) : Bool :=
  (decide ('a' ≤ c) && decide (c ≤ 'z')) || (decide ('0' ≤ c) && decide (c ≤ '9'))

/-- JS `s.replace(/[^a-z0-9]/g, '')`. -/
def stripNonAlnum (s : String) : String :=
  ⟨s.data.filter isLowerAlnum⟩

/-! ### Game configuration (build.ts lines 89-113, `src/types`) -/

/-- `GameConfig` from `src/src/types/index.ts`.  `ligaturePre` models the
source field `ligature_prefix`; the empty string models both an empty and
an absent value, which every use in the script distinguishes only through
JS truthiness. -/
structure GameConfig where
  name : String
  ligaturePre : String
deriving DecidableEq

/-- The derived default configuration substituted when `config.toml` for
`gameDir` fails to read or parse (build.ts lines 105-111). -/
def defaultGameConfig (gameDir : String) : GameConfig :=
  { name := gameDir
    ligaturePre := stripNonAlnum (toLowerAscii gameDir) }

/-- Resolve the config for one game directory (build.ts lines 91-113).
`parsed` is the outcome of reading and TOML-parsing `<dir>/config.toml`
(`none` models any read or parse failure). -/
def loadGameConfig (gameDir : String) (parsed : Option GameConfig) : GameConfig :=
  if gameDir = "" then
    { name := fontFamily, ligaturePre := cssPre }
  else
    match parsed with
    | some config => config
    | none => defaultGameConfig gameDir

/-- The `gameConfigs` map (build.ts lines 89-113), as a function of the
TOML-parsing environment `parse`. -/
def gameConfigs (parse : String → Option GameConfig) (gameDir : String) : GameConfig :=
  loadGameConfig gameDir (parse gameDir)

/-! ### Icon grouping (build.ts lines 66-86) -/

/-- Insert `f` into the group keyed `k` of the insertion-ordered
association list `m`, creating the group at the end when absent; mirrors
the `Map.set` / `push` pattern of build.ts lines 72-83. -/
def insertGroup : List (String × List String) → String → String → List (String × List String)
  | [], k, f => [(k, [f])]
  | (k', fs) :: rest, k, f =>
    if k' = k then (k', fs ++ [f]) :: rest
    else (k', fs) :: insertGroup rest k f

/-- The group a discovered file is assigned to: root-level files go to the
default group `""`; other files go to the first game directory in
`gameDirs` enumeration order that is a string prefix of their containing
directory, or to no group at all (build.ts lines 68-85). -/
def assignedGroup (gameDirs : List String) (f : String) : Option String :=
  if dirname f = "." then some ""
  else gameDirs.find? (fun dir => (dir != "") && strStartsWith (dirname f) dir)

/-- One step of the grouping loop body (build.ts lines 68-86). -/
def addFile (gameDirs : List String) (m : List (String × List String)) (f : String) :
    List (String × List String) :=
  match assignedGroup gameDirs f with
  | some k => insertGroup m k f
  | none => m

/-- The `gameIcons` map (build.ts lines 66-86): discovered SVG files
partitioned by game directory, insertion-ordered. -/
def gameIcons (gameDirs : List String) (svgFiles : List String) :
    List (String × List String) :=
  svgFiles.foldl (addFile gameDirs) []

/-! ### Glyph assembly (build.ts lines 116-163) -/

/-- Glyph metadata attached to each icon stream (build.ts lines 27-31,
147-159).  `unicode` holds the UTF-16 code units of the placeholder
code-point strings created by `String.fromCharCode(0xE000 + index)`. -/
structure GlyphMetadata where
  unicode : List Nat
  name : String
  ligatures : String
deriving DecidableEq

/-- Glyph metadata for `files`, indices starting at `idx`; mirrors the
`files.forEach((filePath, index) => ...)` body of build.ts lines 147-160. -/
def glyphsFrom (config : GameConfig) (idx : Nat) : List String → List GlyphMetadata
  | [] => []
  | filePath :: rest =>
    { unicode := [(0xE000 + idx) % 65536]
      name := baseNameSvg filePath
      ligatures :=
        if config.ligaturePre = "" then baseNameSvg filePath
        else config.ligaturePre ++ "-" ++ baseNameSvg filePath } ::
    glyphsFrom config (idx + 1) rest

/-- The glyph list written into the SVG font for one group
(build.ts lines 116-163). -/
def svgFontGlyphs (parse : String → Option GameConfig) (gameDir : String)
    (files : List String) : List GlyphMetadata :=
  glyphsFrom (gameConfigs parse gameDir) 0 files

/-- Output base name for a group (build.ts line 119 / 214 / 261 / 291). -/
def outputNameOf (gameDir : String) : String :=
  if gameDir = "" then fontName else fontName ++ "-" ++ baseName gameDir

/-! ### Stylesheet generation (build.ts lines 212-256) -/

/-- One per-icon CSS rule (build.ts line 250). -/
def cssIconRule (outputPre nm lig : String) : String :=
  "." ++ outputPre ++ "-" ++ nm ++ "::before \x7b content: \x22" ++ lig ++ "\x22; \x7d"

/-- The per-icon rules of the stylesheet, given the resolved config
(build.ts lines 247-251). -/
def cssIconRulesCore (config : GameConfig) (files : List String) : List String :=
  files.map (fun file =>
    let nm := baseNameSvg file
    let lig := if config.ligaturePre = "" then nm else config.ligaturePre ++ "-" ++ nm
    cssIconRule (if config.ligaturePre = "" then cssPre else config.ligaturePre) nm lig)

/-- Per-icon CSS rules for a group. -/
def cssIconRules (parse : String → Option GameConfig) (gameDir : String)
    (files : List String) : List String :=
  cssIconRulesCore (gameConfigs parse gameDir) files

/-- The full stylesheet text, given the resolved config
(build.ts lines 212-256; the template literal of lines 221-252). -/
def generateCSSCore (config : GameConfig) (gameDir : String) (files : List String) : String :=
  let outputName := outputNameOf gameDir
  let outputFamily := if config.name = "" then fontFamily else fontFamily ++ " " ++ config.name
  let outputId := if gameDir = "" then fontId else fontId ++ "-" ++ baseName gameDir
  let outputPre := if config.ligaturePre = "" then cssPre else config.ligaturePre
  "@font-face \x7b\n  font-family: \x27" ++ outputFamily ++ "\x27;\n  src: url(\x27./"
    ++ outputName ++ ".eot\x27);\n  src: url(\x27./" ++ outputName
    ++ ".eot?#iefix\x27) format(\x27embedded-opentype\x27),\n       url(\x27./" ++ outputName
    ++ ".woff2\x27) format(\x27woff2\x27),\n       url(\x27./" ++ outputName
    ++ ".woff\x27) format(\x27woff\x27),\n       url(\x27./" ++ outputName
    ++ ".ttf\x27) format(\x27truetype\x27),\n       url(\x27./" ++ outputName
    ++ ".svg#" ++ outputId ++ "\x27) format(\x27svg\x27);\n  font-weight: " ++ fontWeight
    ++ ";\n  font-style: " ++ fontStyle ++ ";\n\x7d\n\n." ++ outputPre
    ++ " \x7b\n  font-family: \x27" ++ outputFamily ++ "\x27;\n  font-weight: " ++ fontWeight
    ++ ";\n  font-style: " ++ fontStyle
    ++ ";\n  display: inline-block;\n  line-height: 1;\n  text-rendering: auto;\n"
    ++ "  -webkit-font-smoothing: antialiased;\n  -moz-osx-font-smoothing: grayscale;\n"
    ++ "  font-variant-ligatures: common-ligatures;\n  text-transform: none;\n\x7d\n\n"
    ++ "/* Icon class list */\n"
    ++ String.intercalate "\n" (cssIconRulesCore config files) ++ "\n"

/-- `generateCSS` (build.ts lines 212-256): the stylesheet text written to
`<outputName>.css`. -/
def generateCSS (parse : String → Option GameConfig) (gameDir : String)
    (files : List String) : String :=
  generateCSSCore (gameConfigs parse gameDir) gameDir files

/-! ### JSON manifest generation (build.ts lines 259-286) -/

/-- `Icon` from `src/src/types/index.ts`; `cls` models the source field
`class` (a reserved word in Lean). -/
structure Icon where
  name : String
  cls : String
  ligature : String
  game : Option String
deriving DecidableEq

/-- The manifest entries for one group, given the resolved config
(build.ts lines 267-276). -/
def iconEntriesCore (config : GameConfig) (gameDir : String) (files : List String) :
    List Icon :=
  let outputPre := if config.ligaturePre = "" then cssPre else config.ligaturePre
  let gameName :=
    if config.name ≠ "" then config.name
    else if baseName gameDir ≠ "" then baseName gameDir
    else fontFamily
  files.map (fun file =>
    let nm := baseNameSvg file
    { name := nm
      cls := outputPre ++ "-" ++ nm
      ligature := if config.ligaturePre = "" then nm else config.ligaturePre ++ "-" ++ nm
      game := if gameDir ≠ "" then some gameName else none })

/-- Manifest entries for a group. -/
def iconEntries (parse : String → Option GameConfig) (gameDir : String)
    (files : List String) : List Icon :=
  iconEntriesCore (gameConfigs parse gameDir) gameDir files

/-- Two-digit lower-case hex of `n % 256` (for JSON control-character escapes). -/
def hexByte (n : Nat) : String :=
  let digit := fun (d : Nat) =>
    if d < 10 then Char.ofNat (48 + d) else Char.ofNat (87 + d)
  ⟨[digit ((n / 16) % 16), digit (n % 16)]⟩

/-- JSON string escaping of one character, as `JSON.stringify` performs it. -/
def jsonEscapeChar (c : Char) : String :=
  if c = '\x22' then "\x5c\x22"
  else if c = '\x5c' then "\x5c\x5c"
  else if c = '\n' then "\x5cn"
  else if c = '\t' then "\x5ct"
  else if c = '\r' then "\x5cr"
  else if c = '\x08' then "\x5cb"
  else if c = '\x0c' then "\x5cf"
  else if c.toNat < 32 then "\x5cu00" ++ hexByte c.toNat
  else ⟨[c]⟩

/-- A JSON string literal for `s`. -/
def jsonStr (s : String) : String :=
  "\x22" ++ String.join (s.data.map jsonEscapeChar) ++ "\x22"

/-- `JSON.stringify` of one manifest entry at indent level 2 of
`JSON.stringify(iconsData, null, 2)`; an `undefined` `game` key is omitted. -/
def iconJson (icon : Icon) : String :=
  "\x7b\n      \x22name\x22: " ++ jsonStr icon.name
    ++ ",\n      \x22class\x22: " ++ jsonStr icon.cls
    ++ ",\n      \x22ligature\x22: " ++ jsonStr icon.ligature
    ++ (match icon.game with
        | some g => ",\n      \x22game\x22: " ++ jsonStr g
        | none => "")
    ++ "\n    \x7d"

/-- The manifest text written to `<outputName>-icons.json`, given the
resolved config (build.ts lines 259-286: `JSON.stringify({ icons }, null, 2)`). -/
def generateIconsJSONCore (config : GameConfig) (gameDir : String)
    (files : List String) : String :=
  let entries := iconEntriesCore config gameDir files
  if entries.isEmpty then "\x7b\n  \x22icons\x22: []\n\x7d"
  else
    "\x7b\n  \x22icons\x22: [\n    "
      ++ String.intercalate ",\n    " (entries.map iconJson)
      ++ "\n  ]\n\x7d"

/-- `generateIconsJSON` (build.ts lines 259-286). -/
def generateIconsJSON (parse : String → Option GameConfig) (gameDir : String)
    (files : List String) : String :=
  generateIconsJSONCore (gameConfigs parse gameDir) gameDir files

/-! ### The effectful build (build.ts lines 116-209, 289-362)

External calls (stream reads, `svg2ttf`, `ttf2woff`, `ttf2woff2`,
`ttf2eot`) may throw; a `BuildEnv` records, per call site, whether the
call succeeds.  Written files are recorded as a `(path, content)` trace
in write order. -/

/-- Content of a written artifact: an assembled or converted font carrying
its glyph list, or literal text (stylesheet / manifest). -/
inductive FileContent where
  | font (fmt : String) (glyphs : List GlyphMetadata)
  | text (s : String)
deriving DecidableEq

/-- Which external steps succeed, plus the TOML-parsing outcomes. -/
structure BuildEnv where
  parse : String → Option GameConfig
  svgFontOk : String → List String → Bool
  ttfOk : String → Bool
  woffOk : String → Bool
  woff2Ok : String → Bool
  eotOk : String → Bool

/-- Every external step succeeds. -/
def allOk (env : BuildEnv) : Prop :=
  (∀ g fs, env.svgFontOk g fs = true) ∧ (∀ n, env.ttfOk n = true) ∧
  (∀ n, env.woffOk n = true) ∧ (∀ n, env.woff2Ok n = true) ∧
  (∀ n, env.eotOk n = true)

/-- `buildGameFont` (build.ts lines 289-312): the writes performed for one
group and whether the `try` block ran to completion.  Failure of the SVG
assembly, the TTF, WOFF or EOT conversion throws out of the `try` block
(caught and logged at line 309-311); only the WOFF2 conversion guards its
own failure (lines 191-198), merely skipping the `.woff2` write.
`buildCombinedFont` (lines 314-336) performs exactly these writes with
`gameDir = ""` and the full file list. -/
def buildGameFont (env : BuildEnv) (gameDir : String) (files : List String) :
    List (String × FileContent) × Bool :=
  let outputName := outputNameOf gameDir
  if env.svgFontOk gameDir files then
    let glyphs := svgFontGlyphs env.parse gameDir files
    let w1 := [(outputName ++ ".svg", FileContent.font "svg" glyphs)]
    if env.ttfOk outputName then
      let w2 := w1 ++ [(outputName ++ ".ttf", FileContent.font "ttf" glyphs)]
      if env.woffOk outputName then
        let w3 := w2 ++ [(outputName ++ ".woff", FileContent.font "woff" glyphs)]
        let w4 := w3 ++
          (if env.woff2Ok outputName then
            [(outputName ++ ".woff2", FileContent.font "woff2" glyphs)]
          else [])
        if env.eotOk outputName then
          (w4 ++
            [(outputName ++ ".eot", FileContent.font "eot" glyphs),
             (outputName ++ ".css", FileContent.text (generateCSS env.parse gameDir files)),
             (outputName ++ "-icons.json",
               FileContent.text (generateIconsJSON env.parse gameDir files))], true)
        else (w4, false)
      else (w2, false)
    else (w1, false)
  else ([], false)

/-- The writes of the `for` loop of `build` (build.ts lines 344-348): each
group with a non-empty file list is built; a group's failure is caught
inside `buildGameFont` and never interrupts the loop. -/
def perGroupWrites (env : BuildEnv) (groups : List (String × List String)) :
    List (String × FileContent) :=
  (groups.map (fun e => if e.2.length > 0 then (buildGameFont env e.1 e.2).1 else [])).flatten

/-- Outcome of the whole script run: the write trace and the process exit
code. -/
structure PipelineResult where
  writes : List (String × FileContent)
  exitCode : Nat
deriving DecidableEq

/-- The script from SVG discovery onwards (build.ts lines 54-362):
`process.exit(0)` with no writes when no SVG files exist (lines 58-61);
otherwise group, build every group, then build the combined font, whose
failure alone exits with code 1 (lines 332-335). -/
def runBuild (env : BuildEnv) (configDirs : List String) (svgFiles : List String) :
    PipelineResult :=
  if svgFiles.length = 0 then { writes := [], exitCode := 0 }
  else
    let gameDirs := configDirs ++ [""]
    let groups := gameIcons gameDirs svgFiles
    let combined := buildGameFont env "" svgFiles
    { writes := perGroupWrites env groups ++ combined.1
      exitCode := if combined.2 then 0 else 1 }

/-- The content of the last write to `p` in the trace `ws`. -/
def lastWrite (ws : List (String × FileContent)) (p : String) : Option FileContent :=
  ((ws.filter (fun w => w.1 = p)).getLast?).map Prod.snd

/-! ### Concrete environments used to exercise the model -/

/-- Every `config.toml` read or parse fails. -/
def parseNone : String → Option GameConfig := fun _ => none

/-- A run in which every external call succeeds. -/
def envAllOk : BuildEnv :=
  { parse := parseNone
    svgFontOk := fun _ _ => true
    ttfOk := fun _ => true
    woffOk := fun _ => true
    woff2Ok := fun _ => true
    eotOk := fun _ => true }

/-- A run in which only the WOFF2 conversion fails. -/
def envWoff2Fail : BuildEnv := { envAllOk with woff2Ok := fun _ => false }

/-- A run in which only the WOFF conversion fails. -/
def envWoffFail : BuildEnv := { envAllOk with woffOk := fun _ => false }

/-- A run in which the SVG-font assembly of the `magic` group fails
(e.g. a per-icon read error), everything else succeeding. -/
def envSvgFailMagic : BuildEnv :=
  { envAllOk with svgFontOk := fun g _ => !(g == "magic") }

/-! ### Characterisation of the grouping fold -/

/-- A key is present in `insertGroup m k f` iff it was present in `m` or is `k`. -/
theorem pair_insertGroup (m : List (String × List String)) (k f k' : String) :
    (∃ fs, (k', fs) ∈ insertGroup m k f) ↔ (∃ fs, (k', fs) ∈ m) ∨ k' = k := by
  induction m with
  | nil =>
    rw [show insertGroup [] k f = [(k, [f])] from rfl]
    constructor
    · rintro ⟨fs, hmem⟩
      injection List.mem_singleton.mp hmem with h1 _
      exact Or.inr h1
    · rintro (⟨fs, hmem⟩ | hk)
      · exact absurd hmem (List.not_mem_nil _)
      · subst hk
        exact ⟨[f], List.mem_singleton.mpr rfl⟩
  | cons a rest ih =>
    obtain ⟨ak, afs⟩ := a
    by_cases hak : ak = k
    · subst hak
      have hred : insertGroup ((ak, afs) :: rest) ak f = (ak, afs ++ [f]) :: rest := by
        simp [insertGroup]
      rw [hred]
      constructor
      · rintro ⟨fs, hmem⟩
        rcases List.mem_cons.mp hmem with heq | hmem'
        · injection heq with h1 _
          exact Or.inr h1
        · exact Or.inl ⟨fs, List.mem_cons_of_mem _ hmem'⟩
      · rintro (⟨fs, hmem⟩ | hk)
        · rcases List.mem_cons.mp hmem with heq | hmem'
          · injection heq with h1 _
            subst h1
            exact ⟨afs ++ [f], List.mem_cons_self _ _⟩
          · exact ⟨fs, List.mem_cons_of_mem _ hmem'⟩
        · subst hk
          exact ⟨afs ++ [f], List.mem_cons_self _ _⟩
    · have hred : insertGroup ((ak, afs) :: rest) k f = (ak, afs) :: insertGroup rest k f := by
        simp [insertGroup, hak]
      rw [hred]
      constructor
      · rintro ⟨fs, hmem⟩
        rcases List.mem_cons.mp hmem with heq | hmem'
        · injection heq with h1 _
          subst h1
          exact Or.inl ⟨afs, List.mem_cons_self _ _⟩
        · rcases ih.mp ⟨fs, hmem'⟩ with ⟨fs', h⟩ | hk
          · exact Or.inl ⟨fs', List.mem_cons_of_mem _ h⟩
          · exact Or.inr hk
      · rintro (⟨fs, hmem⟩ | hk)
        · rcases List.mem_cons.mp hmem with heq | hmem'
          · injection heq with h1 h2
            exact ⟨fs, by rw [h1, h2]; exact List.mem_cons_self _ _⟩
          · obtain ⟨fs', h⟩ := ih.mpr (Or.inl ⟨fs, hmem'⟩)
            exact ⟨fs', List.mem_cons_of_mem _ h⟩
        · obtain ⟨fs', h⟩ := ih.mpr (Or.inr hk)
          exact ⟨fs', List.mem_cons_of_mem _ h⟩

/-- File membership in `insertGroup m k f`: either it was there already, or
it is the newly pushed `f` in group `k`. -/
theorem memf_insertGroup (m : List (String × List String)) (k f k' f' : String) :
    (∃ fs, (k', fs) ∈ insertGroup m k f ∧ f' ∈ fs) ↔
    (∃ fs, (k', fs) ∈ m ∧ f' ∈ fs) ∨ (k' = k ∧ f' = f) := by
  induction m with
  | nil =>
    rw [show insertGroup [] k f = [(k, [f])] from rfl]
    constructor
    · rintro ⟨fs, hmem, hf⟩
      injection List.mem_singleton.mp hmem with h1 h2
      subst h2
      exact Or.inr ⟨h1, List.mem_singleton.mp hf⟩
    · rintro (⟨fs, hmem, _⟩ | ⟨hk, hf⟩)
      · exact absurd hmem (List.not_mem_nil _)
      · subst hk; subst hf
        exact ⟨[f'], List.mem_singleton.mpr rfl, List.mem_singleton.mpr rfl⟩
  | cons a rest ih =>
    obtain ⟨ak, afs⟩ := a
    by_cases hak : ak = k
    · subst hak
      have hred : insertGroup ((ak, afs) :: rest) ak f = (ak, afs ++ [f]) :: rest := by
        simp [insertGroup]
      rw [hred]
      constructor
      · rintro ⟨fs, hmem, hf⟩
        rcases List.mem_cons.mp hmem with heq | hmem'
        · injection heq with h1 h2
          subst h1; subst h2
          rcases List.mem_append.mp hf with h | h
          · exact Or.inl ⟨afs, List.mem_cons_self _ _, h⟩
          · exact Or.inr ⟨rfl, List.mem_singleton.mp h⟩
        · exact Or.inl ⟨fs, List.mem_cons_of_mem _ hmem', hf⟩
      · rintro (⟨fs, hmem, hf⟩ | ⟨hk, hf⟩)
        · rcases List.mem_cons.mp hmem with heq | hmem'
          · injection heq with h1 h2
            exact ⟨fs ++ [f], by rw [h1, h2]; exact List.mem_cons_self _ _,
              List.mem_append.mpr (Or.inl hf)⟩
          · exact ⟨fs, List.mem_cons_of_mem _ hmem', hf⟩
        · subst hk; subst hf
          exact ⟨afs ++ [f'], List.mem_cons_self _ _,
            List.mem_append.mpr (Or.inr (List.mem_singleton.mpr rfl))⟩
    · have hred : insertGroup ((ak, afs) :: rest) k f = (ak, afs) :: insertGroup rest k f := by
        simp [insertGroup, hak]
      rw [hred]
      constructor
      · rintro ⟨fs, hmem, hf⟩
        rcases List.mem_cons.mp hmem with heq | hmem'
        · injection heq with h1 h2
          exact Or.inl ⟨fs, by rw [h1, h2]; exact List.mem_cons_self _ _, hf⟩
        · rcases ih.mp ⟨fs, hmem', hf⟩ with ⟨fs', h, hf'⟩ | hkf
          · exact Or.inl ⟨fs', List.mem_cons_of_mem _ h, hf'⟩
          · exact Or.inr hkf
      · rintro (⟨fs, hmem, hf⟩ | hkf)
        · rcases List.mem_cons.mp hmem with heq | hmem'
          · injection heq with h1 h2
            exact ⟨fs, by rw [h1, h2]; exact List.mem_cons_self _ _, hf⟩
          · obtain ⟨fs', h, hf'⟩ := ih.mpr (Or.inl ⟨fs, hmem', hf⟩)
            exact ⟨fs', List.mem_cons_of_mem _ h, hf'⟩
        · obtain ⟨fs', h, hf'⟩ := ih.mpr (Or.inr hkf)
          exact ⟨fs', List.mem_cons_of_mem _ h, hf'⟩

/-- Key presence after one grouping step. -/
theorem pair_addFile (gameDirs : List String) (m : List (String × List String))
    (f k' : String) :
    (∃ fs, (k', fs) ∈ addFile gameDirs m f) ↔
    (∃ fs, (k', fs) ∈ m) ∨ assignedGroup gameDirs f = some k' := by
  unfold addFile
  cases h : assignedGroup gameDirs f with
  | none => simp
  | some k =>
    rw [pair_insertGroup]
    constructor
    · rintro (hm | hk)
      · exact Or.inl hm
      · exact Or.inr (by rw [hk])
    · rintro (hm | hk)
      · exact Or.inl hm
      · exact Or.inr (by injection hk with hk; exact hk.symm)

/-- File membership after one grouping step. -/
theorem memf_addFile (gameDirs : List String) (m : List (String × List String))
    (f k' f' : String) :
    (∃ fs, (k', fs) ∈ addFile gameDirs m f ∧ f' ∈ fs) ↔
    (∃ fs, (k', fs) ∈ m ∧ f' ∈ fs) ∨ (assignedGroup gameDirs f = some k' ∧ f' = f) := by
  unfold addFile
  cases h : assignedGroup gameDirs f with
  | none => simp
  | some k =>
    rw [memf_insertGroup]
    constructor
    · rintro (hm | ⟨hk, hf⟩)
      · exact Or.inl hm
      · exact Or.inr ⟨by rw [hk], hf⟩
    · rintro (hm | ⟨hk, hf⟩)
      · exact Or.inl hm
      · exact Or.inr ⟨by injection hk with hk; exact hk.symm, hf⟩

/-- File membership across the whole grouping fold. -/
theorem memf_foldl (gameDirs : List String) :
    ∀ (files : List String) (m : List (String × List String)) (k' f' : String),
    (∃ fs, (k', fs) ∈ files.foldl (addFile gameDirs) m ∧ f' ∈ fs) ↔
    (∃ fs, (k', fs) ∈ m ∧ f' ∈ fs) ∨ (f' ∈ files ∧ assignedGroup gameDirs f' = some k') := by
  intro files
  induction files with
  | nil => simp
  | cons a rest ih =>
    intro m k' f'
    rw [List.foldl_cons, ih, memf_addFile]
    constructor
    · rintro ((hm | ⟨ha, hf⟩) | ⟨hmem, hass⟩)
      · exact Or.inl hm
      · subst hf
        exact Or.inr ⟨List.mem_cons_self _ _, ha⟩
      · exact Or.inr ⟨List.mem_cons_of_mem _ hmem, hass⟩
    · rintro (hm | ⟨hmem, hass⟩)
      · exact Or.inl (Or.inl hm)
      · rcases List.mem_cons.mp hmem with rfl | hmem'
        · exact Or.inl (Or.inr ⟨hass, rfl⟩)
        · exact Or.inr ⟨hmem', hass⟩

/-- Key presence across the whole grouping fold. -/
theorem pair_foldl (gameDirs : List String) :
    ∀ (files : List String) (m : List (String × List String)) (k' : String),
    (∃ fs, (k', fs) ∈ files.foldl (addFile gameDirs) m) ↔
    (∃ fs, (k', fs) ∈ m) ∨ ∃ f ∈ files, assignedGroup gameDirs f = some k' := by
  intro files
  induction files with
  | nil => simp
  | cons a rest ih =>
    intro m k'
    rw [List.foldl_cons, ih, pair_addFile]
    constructor
    · rintro ((hm | ha) | ⟨f, hf, hass⟩)
      · exact Or.inl hm
      · exact Or.inr ⟨a, List.mem_cons_self _ _, ha⟩
      · exact Or.inr ⟨f, List.mem_cons_of_mem _ hf, hass⟩
    · rintro (hm | ⟨f, hf, hass⟩)
      · exact Or.inl (Or.inl hm)
      · rcases List.mem_cons.mp hf with rfl | hf'
        · exact Or.inl (Or.inr hass)
        · exact Or.inr ⟨f, hf', hass⟩

/-- A file `f` lies in the list of group `k` of `gameIcons` exactly when it
was discovered and the grouping loop assigns it the key `k`. -/
theorem memf_gameIcons (gameDirs files : List String) (k f : String) :
    (∃ fs, (k, fs) ∈ gameIcons gameDirs files ∧ f ∈ fs) ↔
    f ∈ files ∧ assignedGroup gameDirs f = some k := by
  unfold gameIcons
  rw [memf_foldl]
  simp

/-- The keys of `gameIcons` are exactly the values taken by `assignedGroup`
on the discovered files. -/
theorem pair_gameIcons (gameDirs files : List String) (k : String) :
    (∃ fs, (k, fs) ∈ gameIcons gameDirs files) ↔
    ∃ f ∈ files, assignedGroup gameDirs f = some k := by
  unfold gameIcons
  rw [pair_foldl]
  simp

/-- `insertGroup` never creates an empty group list. -/
theorem insertGroup_ne_nil (m : List (String × List String)) (k f : String)
    (h : ∀ p ∈ m, p.2 ≠ []) : ∀ p ∈ insertGroup m k f, p.2 ≠ [] := by
  induction m with
  | nil =>
    intro p hp
    simp only [insertGroup, List.mem_singleton] at hp
    subst hp; simp
  | cons a rest ih =>
    obtain ⟨ak, afs⟩ := a
    intro p hp
    by_cases hak : ak = k
    · subst hak
      have hred : insertGroup ((ak, afs) :: rest) ak f = (ak, afs ++ [f]) :: rest := by
        simp [insertGroup]
      rw [hred] at hp
      rcases List.mem_cons.mp hp with hp | hp
      · rw [hp]; simp
      · exact h p (List.mem_cons_of_mem _ hp)
    · have hred : insertGroup ((ak, afs) :: rest) k f = (ak, afs) :: insertGroup rest k f := by
        simp [insertGroup, hak]
      rw [hred] at hp
      rcases List.mem_cons.mp hp with hp | hp
      · rw [hp]; exact h _ (List.mem_cons_self _ _)
      · exact ih (fun q hq => h q (List.mem_cons_of_mem _ hq)) p hp

/-- Every group produced by the grouping fold has a non-empty file list. -/
theorem gameIcons_ne_nil (gameDirs files : List String) :
    ∀ p ∈ gameIcons gameDirs files, p.2 ≠ [] := by
  unfold gameIcons
  suffices h : ∀ (fl : List String) (m : List (String × List String)),
      (∀ p ∈ m, p.2 ≠ []) → ∀ p ∈ fl.foldl (addFile gameDirs) m, p.2 ≠ [] by
    exact h files [] (by simp)
  intro fl
  induction fl with
  | nil => intro m hm; simpa using hm
  | cons a rest ih =>
    intro m hm
    rw [List.foldl_cons]
    refine ih _ ?_
    unfold addFile
    cases hass : assignedGroup gameDirs a with
    | none => exact hm
    | some k => exact insertGroup_ne_nil m k a hm

/-- `find?` returns the unique element satisfying the predicate when there
is exactly one. -/
theorem find?_unique {α : Type} (p : α → Bool) :
    ∀ (l : List α) (a : α), a ∈ l → p a = true →
    (∀ b ∈ l, p b = true → b = a) → l.find? p = some a := by
  intro l
  induction l with
  | nil => simp
  | cons h t ih =>
    intro a ha hpa huniq
    by_cases hph : p h = true
    · rw [List.find?_cons_of_pos _ hph]
      exact congrArg some (huniq h (List.mem_cons_self _ _) hph)
    · rw [List.find?_cons_of_neg _ (by simpa using hph)]
      rcases List.mem_cons.mp ha with rfl | hat
      · exact absurd hpa hph
      · exact ih a hat hpa (fun b hb => huniq b (List.mem_cons_of_mem _ hb))

/-! ### Facts about group assignment -/

/-- Root-level files are always assigned to the default group. -/
theorem assignedGroup_root (gameDirs : List String) (f : String) (h : dirname f = ".") :
    assignedGroup gameDirs f = some "" := by
  unfold assignedGroup
  rw [if_pos h]

/-- Non-root files are assigned by a first-match scan of `gameDirs`. -/
theorem assignedGroup_not_root (gameDirs : List String) (f : String) (h : dirname f ≠ ".") :
    assignedGroup gameDirs f =
    gameDirs.find? (fun dir => (dir != "") && strStartsWith (dirname f) dir) := by
  unfold assignedGroup
  rw [if_neg h]

/-- When exactly one known game directory is a string prefix of the file's
containing directory, the scan assigns the file to it. -/
theorem assignedGroup_unique (configDirs : List String) (f d : String)
    (hroot : "" ∉ configDirs)
    (hd : dirname f ≠ ".")
    (hmem : d ∈ configDirs)
    (hpre : strStartsWith (dirname f) d = true)
    (huniq : ∀ d' ∈ configDirs, strStartsWith (dirname f) d' = true → d' = d) :
    assignedGroup (configDirs ++ [""]) f = some d := by
  rw [assignedGroup_not_root _ _ hd]
  apply find?_unique
  · exact List.mem_append_left _ hmem
  · have hne : d ≠ "" := fun h => hroot (h ▸ hmem)
    simp [hne, hpre]
  · intro b hb hpb
    have hb' : (b != "") = true ∧ strStartsWith (dirname f) b = true := by
      simpa [Bool.and_eq_true] using hpb
    have hbne : b ≠ "" := by simpa [bne_iff_ne] using hb'.1
    have hbC : b ∈ configDirs := by
      rcases List.mem_append.mp hb with h | h
      · exact h
      · exact absurd (List.mem_singleton.mp h) hbne
    exact huniq b hbC hb'.2

/-- What a successful assignment implies. -/
theorem assignedGroup_some_cases (gameDirs : List String) (f k : String)
    (h : assignedGroup gameDirs f = some k) :
    (dirname f = "." ∧ k = "") ∨
    (dirname f ≠ "." ∧ k ∈ gameDirs ∧ k ≠ "" ∧ strStartsWith (dirname f) k = true) := by
  by_cases hd : dirname f = "."
  · left
    refine ⟨hd, ?_⟩
    rw [assignedGroup_root _ _ hd] at h
    injection h with h
    exact h.symm
  · right
    rw [assignedGroup_not_root _ _ hd] at h
    have hp := List.find?_some h
    have hm := List.mem_of_find?_eq_some h
    have hsplit : (k != "") = true ∧ strStartsWith (dirname f) k = true := by
      simpa [Bool.and_eq_true] using hp
    exact ⟨hd, hm, by simpa [bne_iff_ne] using hsplit.1, hsplit.2⟩

/-! ### Glyph metadata facts -/

/-- The ligature of every assembled glyph follows the prefix/basename rule. -/
theorem glyphsFrom_ligatures (config : GameConfig) :
    ∀ (files : List String) (n : Nat),
    (glyphsFrom config n files).map (fun g => g.ligatures) =
    files.map (fun f =>
      if config.ligaturePre = "" then baseNameSvg f
      else config.ligaturePre ++ "-" ++ baseNameSvg f) := by
  intro files
  induction files with
  | nil => intro n; rfl
  | cons a rest ih =>
    intro n
    simp only [glyphsFrom, List.map_cons, List.map_nil]
    rw [ih (n + 1)]

/-- The name of every assembled glyph is the icon file's base name. -/
theorem glyphsFrom_names (config : GameConfig) :
    ∀ (files : List String) (n : Nat),
    (glyphsFrom config n files).map (fun g => g.name) = files.map baseNameSvg := by
  intro files
  induction files with
  | nil => intro n; rfl
  | cons a rest ih =>
    intro n
    simp only [glyphsFrom, List.map_cons, List.map_nil]
    rw [ih (n + 1)]

/-- Glyph code points are assigned sequentially from the starting index. -/
theorem glyphsFrom_unicode (config : GameConfig) :
    ∀ (files : List String) (n : Nat),
    (glyphsFrom config n files).map (fun g => g.unicode) =
    (List.range files.length).map (fun i => [(0xE000 + (n + i)) % 65536]) := by
  intro files
  induction files with
  | nil => intro n; rfl
  | cons a rest ih =>
    intro n
    simp only [glyphsFrom, List.map_cons, List.length_cons, List.range_succ_eq_map,
      List.map_map]
    congr 1
    rw [ih (n + 1)]
    refine List.map_congr_left (fun i _ => ?_)
    simp only [Function.comp_apply, Nat.succ_eq_add_one]
    rw [show n + 1 + i = n + (i + 1) from by omega]

/-! ### Claim theorems -/

/-- Claim C2 (amended): when `config.toml` for a game directory `d` is
missing or unparseable, the resolved default config's display name is `d`'s
path relative to the icon root (not its base name), and its ligature prefix
is that relative path lower-cased with every character outside `[a-z0-9]`
removed.  For a directory directly under the icon root this coincides with
the base name. -/
theorem config_default_on_parse_failure :
    ∀ (gameDir : String), gameDir ≠ "" →
    loadGameConfig gameDir none =
      { name := gameDir, ligaturePre := stripNonAlnum (toLowerAscii gameDir) } := by
  intro gd h
  unfold loadGameConfig
  rw [if_neg h]
  rfl

/-- Counterexample to claim C2 as stated: for the nested game directory
`a/b` (its `config.toml` unparseable), the resolved default name is the
relative path `a/b`, not the base name `b`, and the resolved ligature
prefix is `ab` (path separator stripped), not `b`. -/
theorem config_default_base_name_cex :
    (loadGameConfig "a/b" none).name ≠ baseName "a/b" ∧
    (loadGameConfig "a/b" none).ligaturePre ≠ stripNonAlnum (toLowerAscii (baseName "a/b")) ∧
    loadGameConfig "a/b" none = { name := "a/b", ligaturePre := "ab" } := by
  refine ⟨?_, ?_, ?_⟩ <;> decide

/-- Witness for `config_default_on_parse_failure` at a concrete directory. -/
theorem config_default_on_parse_failure_witness :
    ("Magic The Gathering" : String) ≠ "" ∧
    loadGameConfig "Magic The Gathering" none =
      { name := "Magic The Gathering"
        ligaturePre := stripNonAlnum (toLowerAscii "Magic The Gathering") } ∧
    stripNonAlnum (toLowerAscii "Magic The Gathering") = "magicthegathering" :=
  ⟨by decide, config_default_on_parse_failure "Magic The Gathering" (by decide), by decide⟩

/-- Claim C4: in the assembled glyphs, the per-icon CSS rules and the JSON
manifest entries alike, the ligature of an icon with base name `b` under a
config with ligature prefix `p` is `p-b` when `p` is non-empty and `b`
when `p` is empty. -/
theorem ligature_formula :
    ∀ (parse : String → Option GameConfig) (gameDir : String) (files : List String),
    ((svgFontGlyphs parse gameDir files).map (fun g => g.ligatures) =
      files.map (fun f =>
        if (gameConfigs parse gameDir).ligaturePre = "" then baseNameSvg f
        else (gameConfigs parse gameDir).ligaturePre ++ "-" ++ baseNameSvg f)) ∧
    ((iconEntries parse gameDir files).map (fun i => i.ligature) =
      files.map (fun f =>
        if (gameConfigs parse gameDir).ligaturePre = "" then baseNameSvg f
        else (gameConfigs parse gameDir).ligaturePre ++ "-" ++ baseNameSvg f)) ∧
    (cssIconRules parse gameDir files =
      files.map (fun f =>
        cssIconRule
          (if (gameConfigs parse gameDir).ligaturePre = "" then cssPre
            else (gameConfigs parse gameDir).ligaturePre)
          (baseNameSvg f)
          (if (gameConfigs parse gameDir).ligaturePre = "" then baseNameSvg f
            else (gameConfigs parse gameDir).ligaturePre ++ "-" ++ baseNameSvg f))) := by
  intro parse gameDir files
  refine ⟨glyphsFrom_ligatures _ files 0, ?_, ?_⟩
  · simp only [iconEntries, iconEntriesCore, List.map_map]
    rfl
  · simp only [cssIconRules, cssIconRulesCore]

/-- Claim C7: when icon discovery finds zero SVG files, the pipeline exits
with status 0 and performs no writes at all. -/
theorem empty_discovery_clean_exit :
    ∀ (env : BuildEnv) (configDirs : List String),
    runBuild env configDirs [] = { writes := [], exitCode := 0 } := by
  intro env configDirs
  rfl

/-- Claim C8: the stylesheet and manifest texts are functions of the file
list, the group key and the resolved config alone (two runs whose resolved
configs agree produce byte-identical text), and glyph code points are
assigned sequentially from the private-use-area base `0xE000` in
enumeration order. -/
theorem generators_deterministic :
    ∀ (p1 p2 : String → Option GameConfig) (gameDir : String) (files : List String),
    gameConfigs p1 gameDir = gameConfigs p2 gameDir →
    generateCSS p1 gameDir files = generateCSS p2 gameDir files ∧
    generateIconsJSON p1 gameDir files = generateIconsJSON p2 gameDir files ∧
    (svgFontGlyphs p1 gameDir files).map (fun g => g.unicode) =
      (List.range files.length).map (fun i => [(0xE000 + i) % 65536]) := by
  intro p1 p2 gameDir files h
  refine ⟨?_, ?_, ?_⟩
  · unfold generateCSS
    rw [h]
  · unfold generateIconsJSON
    rw [h]
  · unfold svgFontGlyphs
    rw [glyphsFrom_unicode (gameConfigs p1 gameDir) files 0]
    exact List.map_congr_left (fun i _ => by rw [Nat.zero_add])

/-- Witness for `generators_deterministic` at a concrete run. -/
theorem generators_deterministic_witness :
    (gameConfigs parseNone "" = gameConfigs parseNone "") ∧
    (generateCSS parseNone "" ["W.svg", "U.svg"] = generateCSS parseNone "" ["W.svg", "U.svg"] ∧
     generateIconsJSON parseNone "" ["W.svg", "U.svg"] =
       generateIconsJSON parseNone "" ["W.svg", "U.svg"] ∧
     (svgFontGlyphs parseNone "" ["W.svg", "U.svg"]).map (fun g => g.unicode) =
       (List.range (["W.svg", "U.svg"] : List String).length).map
         (fun i => [(0xE000 + i) % 65536])) :=
  ⟨rfl, generators_deterministic parseNone parseNone "" ["W.svg", "U.svg"] rfl⟩

/-- Claim C3 (amended): only a WOFF2 conversion failure degrades
gracefully — the group's build still completes, writing the SVG, TTF,
WOFF and EOT fonts plus the stylesheet and manifest, and skipping only the
`.woff2` artifact.  (A TTF, WOFF or EOT conversion failure instead aborts
the remainder of that group's build; see the counterexample.) -/
theorem woff2_failure_degrades_gracefully :
    ∀ (env : BuildEnv) (gameDir : String) (files : List String),
    env.svgFontOk gameDir files = true →
    env.ttfOk (outputNameOf gameDir) = true →
    env.woffOk (outputNameOf gameDir) = true →
    env.eotOk (outputNameOf gameDir) = true →
    env.woff2Ok (outputNameOf gameDir) = false →
    buildGameFont env gameDir files =
      ([(outputNameOf gameDir ++ ".svg",
          FileContent.font "svg" (svgFontGlyphs env.parse gameDir files)),
        (outputNameOf gameDir ++ ".ttf",
          FileContent.font "ttf" (svgFontGlyphs env.parse gameDir files)),
        (outputNameOf gameDir ++ ".woff",
          FileContent.font "woff" (svgFontGlyphs env.parse gameDir files)),
        (outputNameOf gameDir ++ ".eot",
          FileContent.font "eot" (svgFontGlyphs env.parse gameDir files)),
        (outputNameOf gameDir ++ ".css",
          FileContent.text (generateCSS env.parse gameDir files)),
        (outputNameOf gameDir ++ "-icons.json",
          FileContent.text (generateIconsJSON env.parse gameDir files))], true) := by
  intro env gameDir files h1 h2 h3 h4 h5
  simp [buildGameFont, h1, h2, h3, h4, h5]

/-- Counterexample to claim C3 as stated: when the WOFF conversion (a
binary format other than WOFF2) fails, the group build does not complete —
the EOT font, the stylesheet and the manifest are never written. -/
theorem format_failure_not_graceful_cex :
    (buildGameFont envWoffFail "" ["w.svg"]).2 = false ∧
    "chromana.eot" ∉ ((buildGameFont envWoffFail "" ["w.svg"]).1).map Prod.fst ∧
    "chromana.css" ∉ ((buildGameFont envWoffFail "" ["w.svg"]).1).map Prod.fst ∧
    "chromana-icons.json" ∉ ((buildGameFont envWoffFail "" ["w.svg"]).1).map Prod.fst := by
  refine ⟨?_, ?_, ?_, ?_⟩ <;> decide

/-- Witness for `woff2_failure_degrades_gracefully` at a concrete run. -/
theorem woff2_failure_degrades_gracefully_witness :
    (envWoff2Fail.svgFontOk "" ["w.svg"] = true ∧
     envWoff2Fail.ttfOk (outputNameOf "") = true ∧
     envWoff2Fail.woffOk (outputNameOf "") = true ∧
     envWoff2Fail.eotOk (outputNameOf "") = true ∧
     envWoff2Fail.woff2Ok (outputNameOf "") = false) ∧
    buildGameFont envWoff2Fail "" ["w.svg"] =
      ([(outputNameOf "" ++ ".svg",
          FileContent.font "svg" (svgFontGlyphs envWoff2Fail.parse "" ["w.svg"])),
        (outputNameOf "" ++ ".ttf",
          FileContent.font "ttf" (svgFontGlyphs envWoff2Fail.parse "" ["w.svg"])),
        (outputNameOf "" ++ ".woff",
          FileContent.font "woff" (svgFontGlyphs envWoff2Fail.parse "" ["w.svg"])),
        (outputNameOf "" ++ ".eot",
          FileContent.font "eot" (svgFontGlyphs envWoff2Fail.parse "" ["w.svg"])),
        (outputNameOf "" ++ ".css",
          FileContent.text (generateCSS envWoff2Fail.parse "" ["w.svg"])),
        (outputNameOf "" ++ "-icons.json",
          FileContent.text (generateIconsJSON envWoff2Fail.parse "" ["w.svg"]))], true) :=
  ⟨⟨rfl, rfl, rfl, rfl, rfl⟩,
    woff2_failure_degrades_gracefully envWoff2Fail "" ["w.svg"] rfl rfl rfl rfl rfl⟩

/-- Claim C1 (amended): over a root with non-overlapping game directories
(each non-root file extending exactly one of them, each game directory
containing at least one file) and at least one root-level file, the
grouping map's keys are exactly the game directories plus the default key
`""`, and every discovered file belongs to exactly one group.  When there
is no root-level file the default key is absent (see the counterexample). -/
theorem grouping_partition :
    ∀ (configDirs files : List String),
    "" ∉ configDirs →
    (∀ f ∈ files, dirname f ≠ "." →
      ∃ d ∈ configDirs, strStartsWith (dirname f) d = true ∧
        ∀ d' ∈ configDirs, strStartsWith (dirname f) d' = true → d' = d) →
    (∀ d ∈ configDirs, ∃ f ∈ files, dirname f ≠ "." ∧ strStartsWith (dirname f) d = true) →
    (∃ f ∈ files, dirname f = ".") →
    (∀ k, (∃ fs, (k, fs) ∈ gameIcons (configDirs ++ [""]) files) ↔
      (k ∈ configDirs ∨ k = "")) ∧
    (∀ f ∈ files, ∃! k, ∃ fs, (k, fs) ∈ gameIcons (configDirs ++ [""]) files ∧ f ∈ fs) := by
  intro configDirs files hroot huniq hcover hK
  constructor
  · intro k
    rw [pair_gameIcons]
    constructor
    · rintro ⟨f, hf, hass⟩
      rcases assignedGroup_some_cases _ _ _ hass with ⟨_, rfl⟩ | ⟨_, hkmem, hkne, _⟩
      · exact Or.inr rfl
      · rcases List.mem_append.mp hkmem with h | h
        · exact Or.inl h
        · exact absurd (List.mem_singleton.mp h) hkne
    · rintro (hk | rfl)
      · obtain ⟨f, hf, hd, hpre⟩ := hcover k hk
        obtain ⟨d, hdmem, hdpre, hduniq⟩ := huniq f hf hd
        have hkd : k = d := hduniq k hk hpre
        subst hkd
        exact ⟨f, hf, assignedGroup_unique configDirs f k hroot hd hdmem hdpre hduniq⟩
      · obtain ⟨f, hf, hd⟩ := hK
        exact ⟨f, hf, assignedGroup_root _ _ hd⟩
  · intro f hf
    by_cases hd : dirname f = "."
    · refine ⟨"", (memf_gameIcons _ _ _ _).mpr ⟨hf, assignedGroup_root _ _ hd⟩, ?_⟩
      intro y hy
      have h2 := ((memf_gameIcons _ _ _ _).mp hy).2
      rw [assignedGroup_root _ _ hd] at h2
      injection h2 with h2
      exact h2.symm
    · obtain ⟨d, hdmem, hdpre, hduniq⟩ := huniq f hf hd
      have hass := assignedGroup_unique configDirs f d hroot hd hdmem hdpre hduniq
      refine ⟨d, (memf_gameIcons _ _ _ _).mpr ⟨hf, hass⟩, ?_⟩
      intro y hy
      have h2 := ((memf_gameIcons _ _ _ _).mp hy).2
      rw [hass] at h2
      injection h2 with h2
      exact h2.symm

/-- Counterexample to claim C1 as stated: a root holding one game
directory `magic` with one icon and zero root-level files (`K = 0`).  The
grouping map's keys are exactly `["magic"]`; the claimed default key `""`
is absent. -/
theorem grouping_partition_cex :
    gameIcons (["magic"] ++ [""]) ["magic/U.svg"] = [("magic", ["magic/U.svg"])] ∧
    ¬ ∃ fs, ("", fs) ∈ gameIcons (["magic"] ++ [""]) ["magic/U.svg"] := by
  have he : gameIcons (["magic"] ++ [""]) ["magic/U.svg"] = [("magic", ["magic/U.svg"])] := by
    decide
  refine ⟨he, ?_⟩
  rintro ⟨fs, hmem⟩
  rw [he] at hmem
  injection List.mem_singleton.mp hmem with h1 _
  exact absurd h1 (by decide)

/-- Witness for `grouping_partition` at a concrete icon root. -/
theorem grouping_partition_witness :
    ((("" : String) ∉ (["magic"] : List String)) ∧
     (∀ f ∈ (["W.svg", "magic/U.svg"] : List String), dirname f ≠ "." →
       ∃ d ∈ (["magic"] : List String), strStartsWith (dirname f) d = true ∧
         ∀ d' ∈ (["magic"] : List String), strStartsWith (dirname f) d' = true → d' = d) ∧
     (∀ d ∈ (["magic"] : List String), ∃ f ∈ (["W.svg", "magic/U.svg"] : List String),
       dirname f ≠ "." ∧ strStartsWith (dirname f) d = true) ∧
     (∃ f ∈ (["W.svg", "magic/U.svg"] : List String), dirname f = ".")) ∧
    ((∀ k, (∃ fs, (k, fs) ∈ gameIcons (["magic"] ++ [""]) ["W.svg", "magic/U.svg"]) ↔
       (k ∈ (["magic"] : List String) ∨ k = "")) ∧
     (∀ f ∈ (["W.svg", "magic/U.svg"] : List String),
       ∃! k, ∃ fs, (k, fs) ∈ gameIcons (["magic"] ++ [""]) ["W.svg", "magic/U.svg"] ∧
         f ∈ fs)) :=
  ⟨⟨by decide, by decide, by decide, by decide⟩,
    grouping_partition ["magic"] ["W.svg", "magic/U.svg"]
      (by decide) (by decide) (by decide) (by decide)⟩

/-- Claim C5 (amended): for a discovered non-root file, membership in a
group's file list is characterised exactly by a first-match scan — the
file lies in group `k` iff `k` is the first game directory in `gameDirs`
enumeration order that is a string prefix of the file's containing
directory (build.ts line 78, `gameDirs.find(...)`) — not the longest such
prefix (see the counterexample). -/
theorem first_match_grouping :
    ∀ (gameDirs files : List String) (f : String), f ∈ files → dirname f ≠ "." →
    ∀ k, (∃ fs, (k, fs) ∈ gameIcons gameDirs files ∧ f ∈ fs) ↔
      gameDirs.find? (fun dir => (dir != "") && strStartsWith (dirname f) dir) = some k := by
  intro gameDirs files f hf hd k
  rw [memf_gameIcons, assignedGroup_not_root _ _ hd]
  constructor
  · exact fun h => h.2
  · exact fun h => ⟨hf, h⟩

/-- Counterexample to claim C5 as stated: with game directories enumerated
as `a` before `a/b`, the file `a/b/x.svg` — whose containing directory has
both `a` and the longer `a/b` as string prefixes — is grouped under `a`
and belongs to no group keyed by the longest prefix `a/b`. -/
theorem longest_match_cex :
    gameIcons ["a", "a/b", ""] ["a/b/x.svg"] = [("a", ["a/b/x.svg"])] ∧
    (¬ ∃ fs, ("a/b", fs) ∈ gameIcons ["a", "a/b", ""] ["a/b/x.svg"] ∧ "a/b/x.svg" ∈ fs) ∧
    ("a/b" : String) ∈ (["a", "a/b", ""] : List String) ∧
    strStartsWith (dirname "a/b/x.svg") "a/b" = true ∧
    strStartsWith (dirname "a/b/x.svg") "a" = true ∧
    ("a" : String).length < ("a/b" : String).length := by
  have he : gameIcons ["a", "a/b", ""] ["a/b/x.svg"] = [("a", ["a/b/x.svg"])] := by decide
  refine ⟨he, ?_, by decide, by decide, by decide, by decide⟩
  rintro ⟨fs, hmem, _⟩
  rw [he] at hmem
  injection List.mem_singleton.mp hmem with h1 _
  exact absurd h1 (by decide)

/-- Witness for `first_match_grouping` at a concrete grouping. -/
theorem first_match_grouping_witness :
    ((("a/b/x.svg" : String) ∈ (["a/b/x.svg"] : List String)) ∧
     dirname "a/b/x.svg" ≠ ".") ∧
    (∀ k, (∃ fs, (k, fs) ∈ gameIcons ["a", "a/b", ""] ["a/b/x.svg"] ∧
        ("a/b/x.svg" : String) ∈ fs) ↔
      (["a", "a/b", ""] : List String).find?
        (fun dir => (dir != "") && strStartsWith (dirname "a/b/x.svg") dir) = some k) :=
  ⟨⟨by decide, by decide⟩,
    first_match_grouping ["a", "a/b", ""] ["a/b/x.svg"] "a/b/x.svg"
      (by decide) (by decide)⟩

/-- Claim C9: a non-root file whose containing directory extends no known
game directory is assigned to no group at all — it appears in no per-group
file list — while the combined all-icons build (which assembles the full
discovered file list under the default config) does carry a glyph for it. -/
theorem unmatched_file_dropped :
    ∀ (parse : String → Option GameConfig) (gameDirs files : List String) (f : String),
    f ∈ files → dirname f ≠ "." →
    (∀ d ∈ gameDirs, d ≠ "" → strStartsWith (dirname f) d = false) →
    (∀ k fs, (k, fs) ∈ gameIcons gameDirs files → f ∉ fs) ∧
    baseNameSvg f ∈ (svgFontGlyphs parse "" files).map (fun g => g.name) := by
  intro parse gameDirs files f hf hd hnone
  constructor
  · intro k fs hmem hfin
    have h := (memf_gameIcons gameDirs files k f).mp ⟨fs, hmem, hfin⟩
    rcases assignedGroup_some_cases gameDirs f k h.2 with ⟨hdd, _⟩ | ⟨_, hkmem, hkne, hkpre⟩
    · exact hd hdd
    · rw [hnone k hkmem hkne] at hkpre
      simp at hkpre
  · rw [svgFontGlyphs, glyphsFrom_names]
    exact List.mem_map_of_mem baseNameSvg hf

/-- Witness for `unmatched_file_dropped` at a concrete orphan file. -/
theorem unmatched_file_dropped_witness :
    (("other/X.svg" : String) ∈ (["other/X.svg"] : List String) ∧
     dirname "other/X.svg" ≠ "." ∧
     (∀ d ∈ (["magic", ""] : List String), d ≠ "" →
       strStartsWith (dirname "other/X.svg") d = false)) ∧
    ((∀ k fs, (k, fs) ∈ gameIcons ["magic", ""] ["other/X.svg"] → "other/X.svg" ∉ fs) ∧
     baseNameSvg "other/X.svg" ∈
       (svgFontGlyphs parseNone "" ["other/X.svg"]).map (fun g => g.name)) :=
  ⟨⟨by decide, by decide, by decide⟩,
    unmatched_file_dropped parseNone ["magic", ""] ["other/X.svg"] "other/X.svg"
      (by decide) (by decide) (by decide)⟩

/-! ### Build-loop facts -/

/-- The image of a list member is a sublist of the flattened image list. -/
theorem sublist_flatten_of_mem {α β : Type} (f : α → List β) :
    ∀ (l : List α) (x : α), x ∈ l → List.Sublist (f x) ((l.map f).flatten) := by
  intro l
  induction l with
  | nil => intro x hx; exact absurd hx (List.not_mem_nil _)
  | cons a rest ih =>
    intro x hx
    rw [List.map_cons, List.flatten_cons]
    rcases List.mem_cons.mp hx with rfl | hx'
    · exact List.sublist_append_left _ _
    · exact ((ih x hx').trans (List.sublist_append_right _ _))

/-- Under a fully successful environment, a group build writes all seven
artifacts in order and completes. -/
theorem buildGameFont_allOk (env : BuildEnv) (hok : allOk env) :
    ∀ (gameDir : String) (files : List String),
    buildGameFont env gameDir files =
      ([(outputNameOf gameDir ++ ".svg",
          FileContent.font "svg" (svgFontGlyphs env.parse gameDir files)),
        (outputNameOf gameDir ++ ".ttf",
          FileContent.font "ttf" (svgFontGlyphs env.parse gameDir files)),
        (outputNameOf gameDir ++ ".woff",
          FileContent.font "woff" (svgFontGlyphs env.parse gameDir files)),
        (outputNameOf gameDir ++ ".woff2",
          FileContent.font "woff2" (svgFontGlyphs env.parse gameDir files)),
        (outputNameOf gameDir ++ ".eot",
          FileContent.font "eot" (svgFontGlyphs env.parse gameDir files)),
        (outputNameOf gameDir ++ ".css",
          FileContent.text (generateCSS env.parse gameDir files)),
        (outputNameOf gameDir ++ "-icons.json",
          FileContent.text (generateIconsJSON env.parse gameDir files))], true) := by
  intro gameDir files
  obtain ⟨h1, h2, h3, h4, h5⟩ := hok
  simp [buildGameFont, h1, h2, h3, h4, h5]

/-- Under a fully successful environment, filtering the combined build's
write trace for the default stylesheet and manifest paths isolates exactly
those two writes. -/
theorem combined_filter_css_json (env : BuildEnv) (hok : allOk env) (files : List String) :
    ((buildGameFont env "" files).1.filter (fun w => w.1 = "chromana.css")) =
      [("chromana.css", FileContent.text (generateCSS env.parse "" files))] ∧
    ((buildGameFont env "" files).1.filter (fun w => w.1 = "chromana-icons.json")) =
      [("chromana-icons.json", FileContent.text (generateIconsJSON env.parse "" files))] := by
  have e1 : outputNameOf "" ++ ".svg" = "chromana.svg" := by decide
  have e2 : outputNameOf "" ++ ".ttf" = "chromana.ttf" := by decide
  have e3 : outputNameOf "" ++ ".woff" = "chromana.woff" := by decide
  have e4 : outputNameOf "" ++ ".woff2" = "chromana.woff2" := by decide
  have e5 : outputNameOf "" ++ ".eot" = "chromana.eot" := by decide
  have e6 : outputNameOf "" ++ ".css" = "chromana.css" := by decide
  have e7 : outputNameOf "" ++ "-icons.json" = "chromana-icons.json" := by decide
  have hcomb1 : (buildGameFont env "" files).1 =
      [("chromana.svg", FileContent.font "svg" (svgFontGlyphs env.parse "" files)),
       ("chromana.ttf", FileContent.font "ttf" (svgFontGlyphs env.parse "" files)),
       ("chromana.woff", FileContent.font "woff" (svgFontGlyphs env.parse "" files)),
       ("chromana.woff2", FileContent.font "woff2" (svgFontGlyphs env.parse "" files)),
       ("chromana.eot", FileContent.font "eot" (svgFontGlyphs env.parse "" files)),
       ("chromana.css", FileContent.text (generateCSS env.parse "" files)),
       ("chromana-icons.json", FileContent.text (generateIconsJSON env.parse "" files))] := by
    rw [buildGameFont_allOk env hok "" files, e1, e2, e3, e4, e5, e6, e7]
  constructor
  · rw [hcomb1,
      List.filter_cons_of_neg (by simp), List.filter_cons_of_neg (by simp),
      List.filter_cons_of_neg (by simp), List.filter_cons_of_neg (by simp),
      List.filter_cons_of_neg (by simp), List.filter_cons_of_pos (by simp),
      List.filter_cons_of_neg (by simp), List.filter_nil]
  · rw [hcomb1,
      List.filter_cons_of_neg (by simp), List.filter_cons_of_neg (by simp),
      List.filter_cons_of_neg (by simp), List.filter_cons_of_neg (by simp),
      List.filter_cons_of_neg (by simp), List.filter_cons_of_neg (by simp),
      List.filter_cons_of_pos (by simp), List.filter_nil]

/-- Claim C6: when assembling one group's font fails (e.g. a per-icon read
error), that group's build aborts having written nothing, while every
other group's write batch still appears intact in the final trace and the
combined build still runs afterwards (the loop is never halted). -/
theorem group_read_error_isolated :
    ∀ (env : BuildEnv) (configDirs files : List String) (g : String) (fs : List String),
    (g, fs) ∈ gameIcons (configDirs ++ [""]) files →
    env.svgFontOk g fs = false →
    buildGameFont env g fs = ([], false) ∧
    (∀ g' fs', (g', fs') ∈ gameIcons (configDirs ++ [""]) files →
      List.Sublist ((buildGameFont env g' fs').1)
        ((runBuild env configDirs files).writes)) ∧
    List.IsSuffix ((buildGameFont env "" files).1)
      ((runBuild env configDirs files).writes) := by
  intro env configDirs files g fs hmem hfail
  have hfiles : files ≠ [] := by
    rintro rfl
    rw [show gameIcons (configDirs ++ [""]) [] = [] from rfl] at hmem
    exact absurd hmem (List.not_mem_nil _)
  have hlen : ¬ files.length = 0 := fun h => hfiles (List.length_eq_zero.mp h)
  have hrun : runBuild env configDirs files =
      { writes := perGroupWrites env (gameIcons (configDirs ++ [""]) files) ++
          (buildGameFont env "" files).1
        exitCode := if (buildGameFont env "" files).2 then 0 else 1 } := by
    unfold runBuild
    rw [if_neg hlen]
  refine ⟨?_, ?_, ?_⟩
  · simp [buildGameFont, hfail]
  · intro g' fs' hmem'
    rw [hrun]
    have hne : fs' ≠ [] := gameIcons_ne_nil _ _ _ hmem'
    have hpos : fs'.length > 0 := List.length_pos.mpr hne
    have hif : (fun e : String × List String =>
        if e.2.length > 0 then (buildGameFont env e.1 e.2).1 else []) (g', fs') =
        (buildGameFont env g' fs').1 := by
      simp [hpos]
    have hsub := sublist_flatten_of_mem
      (fun e : String × List String =>
        if e.2.length > 0 then (buildGameFont env e.1 e.2).1 else [])
      (gameIcons (configDirs ++ [""]) files) (g', fs') hmem'
    rw [hif] at hsub
    exact hsub.trans (List.sublist_append_left _ _)
  · rw [hrun]
    exact ⟨perGroupWrites env (gameIcons (configDirs ++ [""]) files), rfl⟩

/-- Witness for `group_read_error_isolated` at a concrete failing group. -/
theorem group_read_error_isolated_witness :
    ((("magic" : String), (["magic/U.svg"] : List String)) ∈
        gameIcons (["magic"] ++ [""]) ["W.svg", "magic/U.svg"] ∧
     envSvgFailMagic.svgFontOk "magic" ["magic/U.svg"] = false) ∧
    (buildGameFont envSvgFailMagic "magic" ["magic/U.svg"] = ([], false) ∧
     (∀ g' fs', (g', fs') ∈ gameIcons (["magic"] ++ [""]) ["W.svg", "magic/U.svg"] →
       List.Sublist ((buildGameFont envSvgFailMagic g' fs').1)
         ((runBuild envSvgFailMagic ["magic"] ["W.svg", "magic/U.svg"]).writes)) ∧
     List.IsSuffix ((buildGameFont envSvgFailMagic "" ["W.svg", "magic/U.svg"]).1)
       ((runBuild envSvgFailMagic ["magic"] ["W.svg", "magic/U.svg"]).writes)) :=
  ⟨⟨by decide, by decide⟩,
    group_read_error_isolated envSvgFailMagic ["magic"] ["W.svg", "magic/U.svg"]
      "magic" ["magic/U.svg"] (by decide) (by decide)⟩

/-- Claim C10: the combined all-icons build uses the same output base name
`chromana` and the same built-in default config as the default group and
runs after every per-group build, so when root-level icons exist the
default group's stylesheet and manifest are first written from the root
files alone and then overwritten by the combined artifacts covering every
discovered icon. -/
theorem combined_overwrites_default :
    ∀ (env : BuildEnv) (configDirs files : List String),
    allOk env →
    (∃ f ∈ files, dirname f = ".") →
    outputNameOf "" = fontName ∧
    gameConfigs env.parse "" = { name := fontFamily, ligaturePre := cssPre } ∧
    (∃ fs, ("", fs) ∈ gameIcons (configDirs ++ [""]) files ∧
      ("chromana.css", FileContent.text (generateCSS env.parse "" fs)) ∈
        (runBuild env configDirs files).writes) ∧
    2 ≤ ((runBuild env configDirs files).writes.filter
          (fun w => w.1 = "chromana.css")).length ∧
    lastWrite (runBuild env configDirs files).writes "chromana.css" =
      some (FileContent.text (generateCSS env.parse "" files)) ∧
    lastWrite (runBuild env configDirs files).writes "chromana-icons.json" =
      some (FileContent.text (generateIconsJSON env.parse "" files)) := by
  intro env configDirs files hok hroot
  obtain ⟨f, hf, hfd⟩ := hroot
  obtain ⟨fs, hmem, _⟩ :=
    (memf_gameIcons (configDirs ++ [""]) files "" f).mpr ⟨hf, assignedGroup_root _ _ hfd⟩
  have hfiles : files ≠ [] := by
    rintro rfl
    exact absurd hf (List.not_mem_nil _)
  have hlen : ¬ files.length = 0 := fun h => hfiles (List.length_eq_zero.mp h)
  have hrun : runBuild env configDirs files =
      { writes := perGroupWrites env (gameIcons (configDirs ++ [""]) files) ++
          (buildGameFont env "" files).1
        exitCode := if (buildGameFont env "" files).2 then 0 else 1 } := by
    unfold runBuild
    rw [if_neg hlen]
  -- the default group's own stylesheet write sits in the per-group segment
  have e6 : outputNameOf "" ++ ".css" = "chromana.css" := by decide
  have hgw : ("chromana.css", FileContent.text (generateCSS env.parse "" fs)) ∈
      (buildGameFont env "" fs).1 := by
    rw [buildGameFont_allOk env hok "" fs, ← e6]
    simp
  have hfsne : fs ≠ [] := gameIcons_ne_nil _ _ _ hmem
  have hpos : fs.length > 0 := List.length_pos.mpr hfsne
  have hif : (fun e : String × List String =>
      if e.2.length > 0 then (buildGameFont env e.1 e.2).1 else []) ("", fs) =
      (buildGameFont env "" fs).1 := by
    simp [hpos]
  have hsub := sublist_flatten_of_mem
    (fun e : String × List String =>
      if e.2.length > 0 then (buildGameFont env e.1 e.2).1 else [])
    (gameIcons (configDirs ++ [""]) files) ("", fs) hmem
  rw [hif] at hsub
  have hperG : ("chromana.css", FileContent.text (generateCSS env.parse "" fs)) ∈
      perGroupWrites env (gameIcons (configDirs ++ [""]) files) := hsub.subset hgw
  obtain ⟨hfiltc, hfiltj⟩ := combined_filter_css_json env hok files
  refine ⟨by decide, rfl, ?_, ?_, ?_, ?_⟩
  · exact ⟨fs, hmem, by rw [hrun]; exact List.mem_append_left _ hperG⟩
  · rw [hrun]
    have hmemfilt : ("chromana.css", FileContent.text (generateCSS env.parse "" fs)) ∈
        (perGroupWrites env (gameIcons (configDirs ++ [""]) files)).filter
          (fun w => w.1 = "chromana.css") :=
      List.mem_filter.mpr ⟨hperG, by simp⟩
    have l1 := List.length_pos_of_mem hmemfilt
    have l2 : ((buildGameFont env "" files).1.filter
        (fun w => w.1 = "chromana.css")).length = 1 := by
      rw [hfiltc]
      rfl
    rw [List.filter_append, List.length_append, l2]
    omega
  · rw [hrun]
    unfold lastWrite
    rw [List.filter_append, hfiltc, List.getLast?_concat]
    rfl
  · rw [hrun]
    unfold lastWrite
    rw [List.filter_append, hfiltj, List.getLast?_concat]
    rfl

/-- Witness for `combined_overwrites_default` at a concrete icon root. -/
theorem combined_overwrites_default_witness :
    (allOk envAllOk ∧ (∃ f ∈ (["W.svg", "magic/U.svg"] : List String), dirname f = ".")) ∧
    (outputNameOf "" = fontName ∧
     gameConfigs envAllOk.parse "" = { name := fontFamily, ligaturePre := cssPre } ∧
     (∃ fs, ("", fs) ∈ gameIcons (["magic"] ++ [""]) ["W.svg", "magic/U.svg"] ∧
       ("chromana.css",
         FileContent.text (generateCSS envAllOk.parse "" fs)) ∈
         (runBuild envAllOk ["magic"] ["W.svg", "magic/U.svg"]).writes) ∧
     2 ≤ ((runBuild envAllOk ["magic"] ["W.svg", "magic/U.svg"]).writes.filter
           (fun w => w.1 = "chromana.css")).length ∧
     lastWrite (runBuild envAllOk ["magic"] ["W.svg", "magic/U.svg"]).writes "chromana.css" =
       some (FileContent.text (generateCSS envAllOk.parse "" ["W.svg", "magic/U.svg"])) ∧
     lastWrite (runBuild envAllOk ["magic"] ["W.svg", "magic/U.svg"]).writes
         "chromana-icons.json" =
       some (FileContent.text
         (generateIconsJSON envAllOk.parse "" ["W.svg", "magic/U.svg"]))) :=
  ⟨⟨⟨fun _ _ => rfl, fun _ => rfl, fun _ => rfl, fun _ => rfl, fun _ => rfl⟩,
      ⟨"W.svg", by decide, by decide⟩⟩,
    combined_overwrites_default envAllOk ["magic"] ["W.svg", "magic/U.svg"]
      ⟨fun _ _ => rfl, fun _ => rfl, fun _ => rfl, fun _ => rfl, fun _ => rfl⟩
      ⟨"W.svg", by decide, by decide⟩⟩

end Chromana
